import Mathlib

/-!
A verification development for the `ia-sandbox` Linux process sandbox.

The definitions below are a shallow embedding of the repository's Rust
sources.  Pure data types and functions are translated directly from
`src/config.rs` and `src/lib.rs`.  Machine integers (`u64`) are modelled as
`Nat` with an explicit `% 2 ^ 64` wherever the Rust arithmetic can wrap.
Code of the repository that lives in modules not shipped here
(`ffi.rs`, `errors.rs`, `run_info.rs`, `cgroups.rs`) is modelled from the
specification; every such definition carries a doc comment starting with
`Modelled from the spec:`.
-/

/-- Rust `Duration`, modelled as a number of nanoseconds. -/
abbrev Duration := Nat

/-- The modulus of Rust `u64` arithmetic. -/
def u64Mod : Nat := 2 ^ 64

/-- `config.rs`: `pub struct SpaceUsage(u64)` — wraps a byte count. -/
structure SpaceUsage where
  bytes : Nat
deriving DecidableEq, Repr

namespace SpaceUsage

/-- `config.rs`: `from_bytes` wraps the raw `u64` byte count. -/
def from_bytes (b : Nat) : SpaceUsage := ⟨b⟩

/-- `config.rs`: `from_kilobytes(k) = from_bytes(k * 1_000)` (u64 multiply). -/
def from_kilobytes (kilobytes : Nat) : SpaceUsage :=
  from_bytes (kilobytes * 1000 % u64Mod)

/-- `config.rs`: `from_megabytes(m) = from_kilobytes(m * 1_000)` (u64 multiply). -/
def from_megabytes (megabytes : Nat) : SpaceUsage :=
  from_kilobytes (megabytes * 1000 % u64Mod)

/-- `config.rs`: `from_gigabytes(g) = from_megabytes(g * 1_000)` (u64 multiply). -/
def from_gigabytes (gigabytes : Nat) : SpaceUsage :=
  from_megabytes (gigabytes * 1000 % u64Mod)

/-- `config.rs`: `from_kibibytes(k) = from_bytes(k * 1_024)` (u64 multiply). -/
def from_kibibytes (kibibytes : Nat) : SpaceUsage :=
  from_bytes (kibibytes * 1024 % u64Mod)

/-- `config.rs`: `from_mebibytes(m) = from_kibibytes(m * 1_024)` (u64 multiply). -/
def from_mebibytes (mebibytes : Nat) : SpaceUsage :=
  from_kibibytes (mebibytes * 1024 % u64Mod)

/-- `config.rs`: `from_gibibytes(g) = from_mebibytes(g * 1_024)` (u64 multiply). -/
def from_gibibytes (gibibytes : Nat) : SpaceUsage :=
  from_mebibytes (gibibytes * 1024 % u64Mod)

/-- `config.rs`: `as_bytes` returns the wrapped value. -/
def as_bytes (s : SpaceUsage) : Nat := s.bytes

/-- `config.rs`: `as_kilobytes` divides by 1000. -/
def as_kilobytes (s : SpaceUsage) : Nat := s.bytes / 1000

/-- `config.rs`, `impl Display for SpaceUsage`: the if-chain checking the
binary units (2^30, 2^20, 2^10) first, then the decimal units
(10^9, 10^6, 10^3), falling back to plain bytes. -/
def display (s : SpaceUsage) : String :=
  let n := s.bytes
  if n % (1 <<< 30) = 0 then toString (n >>> 30) ++ " gibibytes"
  else if n % (1 <<< 20) = 0 then toString (n >>> 20) ++ " mebibytes"
  else if n % (1 <<< 10) = 0 then toString (n >>> 10) ++ " kibibytes"
  else if n % 1000000000 = 0 then toString (n / 1000000000) ++ " gigabytes"
  else if n % 1000000 = 0 then toString (n / 1000000) ++ " megabytes"
  else if n % 1000 = 0 then toString (n / 1000) ++ " kilobytes"
  else toString n ++ " bytes"

end SpaceUsage

/-- The largest element of a list of naturals, if any. -/
def listMax : List Nat → Option Nat
  | [] => none
  | u :: us =>
    match listMax us with
    | none => some u
    | some v => some (max u v)

/-- The largest unit among `units` that divides `n` evenly. -/
def largestDividing (units : List Nat) (n : Nat) : Option Nat :=
  listMax (units.filter (fun u => n % u == 0))

/-- The display name the spec associates with each unit size. -/
def unitName (u : Nat) : String :=
  if u = 2 ^ 30 then " gibibytes"
  else if u = 2 ^ 20 then " mebibytes"
  else if u = 2 ^ 10 then " kibibytes"
  else if u = 10 ^ 9 then " gigabytes"
  else if u = 10 ^ 6 then " megabytes"
  else if u = 10 ^ 3 then " kilobytes"
  else " bytes"

/-- The spec's description of the `Display` rendering, stated in its own
words for comparison with `SpaceUsage.display`: use the largest unit that
divides the byte count evenly, preferring a binary unit whenever any binary
unit applies, and fall back to plain bytes when no unit divides evenly. -/
def displaySpec (n : Nat) : String :=
  match largestDividing [2 ^ 10, 2 ^ 20, 2 ^ 30] n with
  | some u => toString (n / u) ++ unitName u
  | none =>
    match largestDividing [10 ^ 3, 10 ^ 6, 10 ^ 9] n with
    | some u => toString (n / u) ++ unitName u
    | none => toString n ++ " bytes"

/-- `config.rs`: `Limits` — all five fields independently optional. -/
structure Limits where
  wall_time : Option Duration
  user_time : Option Duration
  memory : Option SpaceUsage
  stack : Option SpaceUsage
  pids : Option Nat
deriving DecidableEq, Repr

namespace Limits

/-- `config.rs`: `Limits::new`. -/
def new (wall_time user_time : Option Duration) (memory stack : Option SpaceUsage)
    (pids : Option Nat) : Limits :=
  ⟨wall_time, user_time, memory, stack, pids⟩

/-- `config.rs`: `impl Default for Limits` — all five fields `None`. -/
def default : Limits := new none none none none none

end Limits

/-- `config.rs`: `ControllerPath` — parent cgroup directories, all optional. -/
structure ControllerPath where
  cpuacct : Option String
  memory : Option String
  pids : Option String
deriving DecidableEq, Repr

namespace ControllerPath

/-- `config.rs`: `ControllerPath::new`. -/
def new (cpuacct memory pids : Option String) : ControllerPath :=
  ⟨cpuacct, memory, pids⟩

/-- `config.rs`: `impl Default for ControllerPath`. -/
def default : ControllerPath := new none none none

end ControllerPath

/-- `config.rs`: `MountOptions`. -/
structure MountOptions where
  read_only : Bool
  dev : Bool
  exec : Bool
deriving DecidableEq, Repr

/-- `config.rs`: `impl Default for MountOptions` —
`read_only = true`, `dev = false`, `exec = false`. -/
def MountOptions.default : MountOptions := ⟨true, false, false⟩

/-- `config.rs`: `Mount` — a bind mount of `source` at `destination`. -/
structure Mount where
  source : String
  destination : String
  mount_options : MountOptions
deriving DecidableEq, Repr

/-- `config.rs`: `Mount::new`. -/
def Mount.new (source destination : String) (mount_options : MountOptions) : Mount :=
  ⟨source, destination, mount_options⟩

/-- `config.rs`: `ShareNet`. -/
inductive ShareNet
  | share
  | unshare
deriving DecidableEq, Repr

/-- Modelled from the spec: the `Environment` enum of the configuration
model (its declaration is missing from the provided `config.rs` snapshot;
`lib.rs` and the integration tests use it) —
`{Inherit, Empty, EnvList(pairs)}`. -/
inductive Environment
  | inherit
  | empty
  | envList (vars : List (String × String))
deriving DecidableEq, Repr

/-- Modelled from the spec: the `SwapRedirects` flag of the configuration
model (declaration missing from the provided `config.rs` snapshot) —
if `Yes`, stdout is redirected before stdin. -/
inductive SwapRedirects
  | yes
  | no
deriving DecidableEq, Repr

/-- Modelled from the spec: the `ClearUsage` flag of the configuration model
(declaration missing from the provided `config.rs` snapshot) — whether to
reset cpuacct/memory counters on entry. -/
inductive ClearUsage
  | yes
  | no
deriving DecidableEq, Repr

/-- Modelled from the spec: the `Interactive` flag of the configuration model
(declaration missing from the provided `config.rs` snapshot) — if `No`, the
child is moved to its own process group. -/
inductive Interactive
  | yes
  | no
deriving DecidableEq, Repr

/-- `config.rs`: the `Config` policy record.  The `environment`,
`swap_redirects`, `clear_usage` and `interactive` fields are modelled from
the spec (their declarations are missing from the provided `config.rs`
snapshot while `lib.rs` reads them through accessors of the same name). -/
structure Config where
  command : String
  args : List String
  environment : Environment
  new_root : Option String
  share_net : ShareNet
  redirect_stdin : Option String
  redirect_stdout : Option String
  redirect_stderr : Option String
  limits : Limits
  instance_name : Option String
  controller_path : ControllerPath
  mounts : List Mount
  swap_redirects : SwapRedirects
  clear_usage : ClearUsage
  interactive : Interactive
deriving DecidableEq, Repr

/-- `config.rs`: `Config::new`, extended with the four spec-modelled fields. -/
def Config.new (command : String) (args : List String) (environment : Environment)
    (new_root : Option String) (share_net : ShareNet)
    (redirect_stdin redirect_stdout redirect_stderr : Option String)
    (limits : Limits) (instance_name : Option String)
    (controller_path : ControllerPath) (mounts : List Mount)
    (swap_redirects : SwapRedirects) (clear_usage : ClearUsage)
    (interactive : Interactive) : Config :=
  ⟨command, args, environment, new_root, share_net, redirect_stdin, redirect_stdout,
   redirect_stderr, limits, instance_name, controller_path, mounts, swap_redirects,
   clear_usage, interactive⟩

/-- C8: the decimal constructors scale by 10^3, 10^6, 10^9 and the binary
constructors by 2^10, 2^20, 2^30, all in u64 arithmetic (overflow taken
modulo 2^64), and `as_bytes` is a left inverse of `from_bytes`. -/
theorem spaceUsage_constructor_scales (n : Nat) :
    (SpaceUsage.from_kilobytes n).as_bytes = n * 10 ^ 3 % 2 ^ 64
    ∧ (SpaceUsage.from_megabytes n).as_bytes = n * 10 ^ 6 % 2 ^ 64
    ∧ (SpaceUsage.from_gigabytes n).as_bytes = n * 10 ^ 9 % 2 ^ 64
    ∧ (SpaceUsage.from_kibibytes n).as_bytes = n * 2 ^ 10 % 2 ^ 64
    ∧ (SpaceUsage.from_mebibytes n).as_bytes = n * 2 ^ 20 % 2 ^ 64
    ∧ (SpaceUsage.from_gibibytes n).as_bytes = n * 2 ^ 30 % 2 ^ 64
    ∧ (SpaceUsage.from_bytes n).as_bytes = n := by
  refine ⟨rfl, ?_, ?_, rfl, ?_, ?_, rfl⟩ <;>
    simp only [SpaceUsage.from_gigabytes, SpaceUsage.from_megabytes,
      SpaceUsage.from_kilobytes, SpaceUsage.from_gibibytes, SpaceUsage.from_mebibytes,
      SpaceUsage.from_kibibytes, SpaceUsage.from_bytes, SpaceUsage.as_bytes,
      Nat.mod_mul_mod, Nat.mul_assoc, u64Mod] <;>
    norm_num

/-- C7: the `Display` rendering of a `SpaceUsage` agrees with the spec's
rule: use the largest unit that divides the byte count evenly, binary units
preferred over decimal ones, plain bytes when no unit divides. -/
theorem spaceUsage_display_eq_spec (s : SpaceUsage) :
    s.display = displaySpec s.as_bytes := by
  rcases s with ⟨n⟩
  have hb : largestDividing [1024, 1048576, 1073741824] n
      = if n % 1073741824 = 0 then some 1073741824
        else if n % 1048576 = 0 then some 1048576
        else if n % 1024 = 0 then some 1024
        else none := by
    by_cases h30 : n % 1073741824 = 0 <;> by_cases h20 : n % 1048576 = 0 <;>
      by_cases h10 : n % 1024 = 0 <;>
      simp [largestDividing, listMax, h30, h20, h10]
  have hd : largestDividing [1000, 1000000, 1000000000] n
      = if n % 1000000000 = 0 then some 1000000000
        else if n % 1000000 = 0 then some 1000000
        else if n % 1000 = 0 then some 1000
        else none := by
    by_cases d9 : n % 1000000000 = 0 <;> by_cases d6 : n % 1000000 = 0 <;>
      by_cases d3 : n % 1000 = 0 <;>
      simp [largestDividing, listMax, d9, d6, d3]
  have hdiv : ∀ k : Nat, n >>> k = n / 2 ^ k := fun k => Nat.shiftRight_eq_div_pow n k
  by_cases h30 : n % 1073741824 = 0 <;> by_cases h20 : n % 1048576 = 0 <;>
    by_cases h10 : n % 1024 = 0 <;> by_cases d9 : n % 1000000000 = 0 <;>
    by_cases d6 : n % 1000000 = 0 <;> by_cases d3 : n % 1000 = 0 <;>
    simp [SpaceUsage.display, displaySpec, unitName, SpaceUsage.as_bytes, hb, hd,
      h30, h20, h10, d9, d6, d3, hdiv]

/-- Modelled from the spec: the `FFIError` taxonomy of `errors.rs` (§7),
which is missing from the provided sources. -/
inductive FFIError
  | cloneError
  | mountError
  | pivotRootError
  | uidGidMapError
  | redirectError
  | execError (path : String) (errno : Nat)
  | waitError
  | signalHandlerError
deriving DecidableEq, Repr

/-- Modelled from the spec: the `CgroupError` taxonomy of `errors.rs` (§7). -/
inductive CgroupError
  | controllerUnavailable
  | writeError (file : String)
  | readError (file : String)
  | leafBusy
deriving DecidableEq, Repr

/-- Modelled from the spec: `ChildError` — an `FFIError` or `CgroupError`
observed inside the sandboxed child and serialized back through the result
pipe (`errors.rs` is missing from the provided sources). -/
inductive ChildError
  | ffiError (e : FFIError)
  | cgroupError (e : CgroupError)
deriving DecidableEq, Repr

/-- Modelled from the spec: the caller-facing `Error` type of `errors.rs`
(§7): child errors, supervisor death, FFI and serialization failures. -/
inductive Error
  | ffiError (e : FFIError)
  | childError (e : ChildError)
  | supervisorProcessDiedError
  | serializationError
deriving DecidableEq, Repr

/-- Modelled from the spec: `RunUsage {wall_time, user_time, memory}` from
`run_info.rs` (missing from the provided sources). -/
structure RunUsage where
  wall_time : Duration
  user_time : Duration
  memory : SpaceUsage
deriving DecidableEq, Repr

/-- Modelled from the spec: `RunUsage` is zero-initialized by default. -/
def RunUsage.default : RunUsage := ⟨0, 0, ⟨0⟩⟩

/-- Modelled from the spec: the verdict part of `RunInfo<T>` from
`run_info.rs` — a sum over Success, NonZeroExit, KilledBySignal,
WallTimeExceeded, TimeExceeded, MemoryExceeded. -/
inductive RunInfoResult (T : Type)
  | success (t : T)
  | nonZeroExit (code : Nat)
  | killedBySignal (sig : Nat)
  | wallTimeExceeded
  | timeExceeded
  | memoryExceeded
deriving DecidableEq, Repr

/-- Whether a verdict is one of the three limit verdicts. -/
def RunInfoResult.isLimitVerdict {T : Type} : RunInfoResult T → Bool
  | .wallTimeExceeded => true
  | .timeExceeded => true
  | .memoryExceeded => true
  | _ => false

/-- Modelled from the spec: `RunInfo<T>` — a verdict together with a
`RunUsage` (`run_info.rs` is missing from the provided sources). -/
structure RunInfo (T : Type) where
  result : RunInfoResult T
  usage : RunUsage
deriving DecidableEq, Repr

/-- Modelled from the spec: `RunInfo::success` returns `Some` only on the
Success branch. -/
def RunInfo.success {T : Type} : RunInfo T → Option T
  | ⟨RunInfoResult.success t, _⟩ => some t
  | _ => none

/-- Modelled from the spec: the `and_then` combinator of `RunInfo` over the
success branch, at the fallible-function signature `lib.rs` uses — the
closure result is lifted out, non-success verdicts pass through. -/
def RunInfo.and_then {T U E : Type} (ri : RunInfo T) (f : T → Except E U) :
    Except E (RunInfo U) :=
  match ri.result with
  | .success t => (f t).map (fun u => ⟨RunInfoResult.success u, ri.usage⟩)
  | .nonZeroExit code => Except.ok ⟨RunInfoResult.nonZeroExit code, ri.usage⟩
  | .killedBySignal sig => Except.ok ⟨RunInfoResult.killedBySignal sig, ri.usage⟩
  | .wallTimeExceeded => Except.ok ⟨RunInfoResult.wallTimeExceeded, ri.usage⟩
  | .timeExceeded => Except.ok ⟨RunInfoResult.timeExceeded, ri.usage⟩
  | .memoryExceeded => Except.ok ⟨RunInfoResult.memoryExceeded, ri.usage⟩

/-- Linux signal number of SIGKILL. -/
def SIGKILL : Nat := 9

/-- Linux signal number of SIGSEGV. -/
def SIGSEGV : Nat := 11

/-- The exit status of a reaped process as seen by `waitpid`. -/
inductive ExitStatus
  | exited (code : Nat)
  | signaled (sig : Nat)
deriving DecidableEq, Repr

/-- What the parent observes of a cloned process: its `waitpid` status and
the complete record read from the one-shot result pipe (`none` when the
read was short, i.e. nothing or only part of a record was written). -/
structure ChildReport (ρ : Type) where
  status : ExitStatus
  piped : Option ρ
deriving DecidableEq, Repr

/-- Modelled from the spec: a cloned process whose body ran to completion
with result `res` writes `res` to the result pipe before exiting, so the
parent reads the complete record and sees a zero exit; a body error is
"reported over the result pipe, not via exit code" (§5), which together
with the repository's `test_exec_failed` fixes the pre-exec exit code as 0
(§7's "nonzero code after writing" cannot hold simultaneously).  When the
body instead reaches `execve`, nothing is ever written (the pipe's write
end is closed on exec) and the status is the executed program's. -/
def bodyReport {ρ : Type} (res : ρ) : ChildReport ρ := ⟨ExitStatus.exited 0, some res⟩

/-- Modelled from the spec: the overlay of cgroup-derived verdicts in
`CloneHandle::wait` (§4.A): MemoryExceeded wins over
KilledBySignal(SIGKILL/SIGSEGV) when the measured memory reaches the limit,
TimeExceeded wins when the measured user time reaches the limit. -/
def applyLimits {T : Type} (limits : Limits) (usage : RunUsage)
    (r : RunInfoResult T) : RunInfoResult T :=
  let r1 :=
    match limits.memory with
    | some m =>
      match r with
      | .killedBySignal sig =>
        if (sig = SIGKILL ∨ sig = SIGSEGV) ∧ m.as_bytes ≤ usage.memory.as_bytes then
          RunInfoResult.memoryExceeded
        else r
      | _ => r
    | none => r
  match limits.user_time with
  | some t => if t ≤ usage.user_time then RunInfoResult.timeExceeded else r1
  | none => r1

/-- Modelled from the spec: `CloneHandle::wait(limits, usage_probe)` from
`ffi.rs` (§4.A), with the waited process abstracted by a `ChildReport` and
the SIGALRM watchdog by the `alarmFired` flag (the alarm is only armed when
`limits.wall_time` is set).  On alarm the verdict is WallTimeExceeded; a
zero exit yields `Success` of the (optional) piped record; a nonzero exit
yields NonZeroExit; a signal yields KilledBySignal; cgroup-derived verdicts
are overlaid when stricter. -/
def CloneHandle.wait {ρ : Type} (limits : Limits)
    (usage_probe : Duration → Except Error RunUsage) (elapsed : Duration)
    (alarmFired : Bool) (rep : ChildReport ρ) :
    Except Error (RunInfo (Option ρ)) :=
  if alarmFired && limits.wall_time.isSome then
    (usage_probe elapsed).map (fun usage => ⟨RunInfoResult.wallTimeExceeded, usage⟩)
  else
    (usage_probe elapsed).map (fun usage =>
      let base : RunInfoResult (Option ρ) :=
        match rep.status with
        | .exited 0 => RunInfoResult.success rep.piped
        | .exited code => RunInfoResult.nonZeroExit code
        | .signaled sig => RunInfoResult.killedBySignal sig
      ⟨applyLimits limits usage base, usage⟩)

/-- `lib.rs` (spawn_jail, lines 156-161): the flattening of the doubly
nested result after the supervisor's wait — an empty pipe means the exec
succeeded and the program exited 0, a piped child error becomes
`Error::ChildError`. -/
def supervisorFlatten (ri : RunInfo (Option (Except ChildError Unit))) :
    Except Error (RunInfo Unit) :=
  ri.and_then (fun o =>
    match o with
    | none => Except.ok ()
    | some res => res.mapError Error.childError)

/-- `lib.rs`: the supervisor's wait-and-flatten — `wait(config.limits(),
usage_probe)` followed by the flattening of the inner child's result. -/
def supervisorBody (limits : Limits) (usage_probe : Duration → Except Error RunUsage)
    (elapsed : Duration) (alarmFired : Bool)
    (rep : ChildReport (Except ChildError Unit)) : Except Error (RunInfo Unit) :=
  (CloneHandle.wait limits usage_probe elapsed alarmFired rep).bind supervisorFlatten

/-- `lib.rs` (`JailHandle::wait`): wait on the supervisor with
`Limits::default()` and a probe returning `RunUsage::default()`, then
flatten option-in-option and result-in-result, turning a missing payload
into `SupervisorProcessDiedError`. -/
def JailHandle.wait (alarmFired : Bool) (elapsed : Duration)
    (rep : ChildReport (Except Error (RunInfo Unit))) : Except Error (RunInfo Unit) :=
  (CloneHandle.wait Limits.default (fun _ => Except.ok RunUsage.default) elapsed
      alarmFired rep).bind
    (fun runInfo =>
      match runInfo.success.bind id with
      | some x => x
      | none => Except.error Error.supervisorProcessDiedError)

/-- Evaluation of the caller-side wait on each shape of supervisor report:
only a zero exit with a complete piped record yields that record; every
other shape yields `SupervisorProcessDiedError`. -/
theorem jailWait_eval (alarmFired : Bool) (elapsed : Duration)
    (st : ExitStatus) (piped : Option (Except Error (RunInfo Unit))) :
    JailHandle.wait alarmFired elapsed ⟨st, piped⟩
      = match st, piped with
        | .exited 0, some x => x
        | .exited 0, none => Except.error Error.supervisorProcessDiedError
        | .exited (_ + 1), _ => Except.error Error.supervisorProcessDiedError
        | .signaled _, _ => Except.error Error.supervisorProcessDiedError := by
  cases alarmFired <;> cases st with
  | exited code =>
    rcases code with _ | n <;> cases piped <;> rfl
  | signaled sig => cases piped <;> rfl

/-- C3: `JailHandle::wait` returns `Ok` with a `RunInfo` exactly when the
supervisor exited 0 having delivered that `RunInfo` as an `Ok` record over
the result pipe; a nonzero supervisor exit, a supervisor killed by a signal,
and a short pipe read each yield `Error::SupervisorProcessDiedError`. -/
theorem jailHandle_wait_ok_iff_delivered (alarmFired : Bool) (elapsed : Duration)
    (rep : ChildReport (Except Error (RunInfo Unit))) :
    (∀ ri : RunInfo Unit,
      JailHandle.wait alarmFired elapsed rep = Except.ok ri
        ↔ rep.status = ExitStatus.exited 0 ∧ rep.piped = some (Except.ok ri))
    ∧ (∀ code, rep.status = ExitStatus.exited code → code ≠ 0 →
        JailHandle.wait alarmFired elapsed rep
          = Except.error Error.supervisorProcessDiedError)
    ∧ (∀ sig, rep.status = ExitStatus.signaled sig →
        JailHandle.wait alarmFired elapsed rep
          = Except.error Error.supervisorProcessDiedError)
    ∧ (rep.status = ExitStatus.exited 0 → rep.piped = none →
        JailHandle.wait alarmFired elapsed rep
          = Except.error Error.supervisorProcessDiedError) := by
  rcases rep with ⟨st, piped⟩
  rcases st with code | sig
  · rcases code with _ | n
    · rcases piped with _ | x
      · simp [jailWait_eval]
      · refine ⟨fun ri => ?_, fun code hc hne => ?_, fun sig hc => ?_, fun h0 hp => ?_⟩
        · rw [jailWait_eval]
          exact ⟨fun h => ⟨rfl, congrArg some h⟩, fun h => Option.some.inj h.2⟩
        · simp only [ChildReport.status] at hc
          injection hc with h0
          exact absurd h0.symm hne
        · simp only [ChildReport.status] at hc
          cases hc
        · simp only [ChildReport.piped] at hp
          cases hp
    · simp [jailWait_eval]
  · simp [jailWait_eval]

/-- Witness for C3 at concrete supervisor reports: a delivered `Ok` record,
a nonzero supervisor exit, a killed supervisor and a short read. -/
theorem jailHandle_wait_ok_iff_delivered_witness :
    JailHandle.wait false 0
        ⟨ExitStatus.exited 0,
         some (Except.ok ⟨RunInfoResult.success (), RunUsage.default⟩)⟩
      = Except.ok ⟨RunInfoResult.success (), RunUsage.default⟩
    ∧ JailHandle.wait false 0 ⟨ExitStatus.exited 1, none⟩
      = Except.error Error.supervisorProcessDiedError
    ∧ JailHandle.wait false 0 ⟨ExitStatus.signaled 9, none⟩
      = Except.error Error.supervisorProcessDiedError
    ∧ JailHandle.wait false 0 ⟨ExitStatus.exited 0, none⟩
      = Except.error Error.supervisorProcessDiedError :=
  ⟨((jailHandle_wait_ok_iff_delivered false 0 _).1 _).mpr ⟨rfl, rfl⟩,
   (jailHandle_wait_ok_iff_delivered false 0 _).2.1 1 rfl (by decide),
   (jailHandle_wait_ok_iff_delivered false 0 _).2.2.1 9 rfl,
   (jailHandle_wait_ok_iff_delivered false 0 _).2.2.2 rfl rfl⟩

/-- Evaluation of `CloneHandle.wait` under default limits and the constant
default-usage probe: the alarm flag is ignored, no overlay applies, and the
status is classified directly. -/
theorem cloneWait_default_eval {ρ : Type} (elapsed : Duration) (alarmFired : Bool)
    (st : ExitStatus) (piped : Option ρ) :
    CloneHandle.wait Limits.default (fun _ => Except.ok RunUsage.default) elapsed
        alarmFired ⟨st, piped⟩
      = Except.ok
          ⟨match st with
            | ExitStatus.exited 0 => RunInfoResult.success piped
            | ExitStatus.exited code => RunInfoResult.nonZeroExit code
            | ExitStatus.signaled sig => RunInfoResult.killedBySignal sig,
           RunUsage.default⟩ := by
  cases alarmFired <;> rcases st with code | sig
  · rcases code with _ | n <;> rfl
  · rfl
  · rcases code with _ | n <;> rfl
  · rfl

/-- C10: the caller-side wait runs with `Limits::default()` (all five limit
fields `None`) and a probe returning `RunUsage::default()`: it is
insensitive to the wall-clock alarm flag and to elapsed time, and its own
classification never produces a limit verdict and never measures usage. -/
theorem jailHandle_wait_default_limits :
    (Limits.default.wall_time = none ∧ Limits.default.user_time = none
      ∧ Limits.default.memory = none ∧ Limits.default.stack = none
      ∧ Limits.default.pids = none)
    ∧ (∀ (alarmFired : Bool) (elapsed : Duration)
        (rep : ChildReport (Except Error (RunInfo Unit))),
        JailHandle.wait alarmFired elapsed rep = JailHandle.wait false 0 rep)
    ∧ (∀ (alarmFired : Bool) (elapsed : Duration)
        (rep : ChildReport (Except Error (RunInfo Unit)))
        (ri : RunInfo (Option (Except Error (RunInfo Unit)))),
        CloneHandle.wait Limits.default (fun _ => Except.ok RunUsage.default)
            elapsed alarmFired rep = Except.ok ri →
        ri.usage = RunUsage.default ∧ ri.result.isLimitVerdict = false) := by
  refine ⟨⟨rfl, rfl, rfl, rfl, rfl⟩, ?_, ?_⟩
  · intro alarmFired elapsed rep
    rcases rep with ⟨st, piped⟩
    rw [jailWait_eval, jailWait_eval]
  · intro alarmFired elapsed rep ri h
    rcases rep with ⟨st, piped⟩
    rw [cloneWait_default_eval] at h
    injection h with h'
    subst h'
    refine ⟨rfl, ?_⟩
    rcases st with code | sig
    · rcases code with _ | n <;> rfl
    · rfl

/-- Witness for C10 at a concrete report: the caller-side classification of
a cleanly exited supervisor with an empty pipe carries default usage and no
limit verdict. -/
theorem jailHandle_wait_default_limits_witness :
    (⟨RunInfoResult.success none, RunUsage.default⟩
        : RunInfo (Option (Except Error (RunInfo Unit)))).usage = RunUsage.default
    ∧ (⟨RunInfoResult.success none, RunUsage.default⟩
        : RunInfo (Option (Except Error (RunInfo Unit)))).result.isLimitVerdict
        = false :=
  jailHandle_wait_default_limits.2.2 false 0 ⟨ExitStatus.exited 0, none⟩
    ⟨RunInfoResult.success none, RunUsage.default⟩ rfl

/-- C2: an error occurring inside the sandboxed child during setup or exec
is serialized over the result pipe and surfaces at the caller as
`Error::ChildError` carrying that error — a typed error, never a verdict
`RunInfo` — provided the run is not simultaneously hit by a limit (no alarm
fired, measured user time below any user-time limit). -/
theorem child_error_surfaces_as_childError (e : ChildError) (limits : Limits)
    (usage : RunUsage) (elapsed elapsedOuter : Duration) (alarmOuter : Bool)
    (huser : ∀ t, limits.user_time = some t → usage.user_time < t) :
    supervisorBody limits (fun _ => Except.ok usage) elapsed false
        (bodyReport (Except.error e)) = Except.error (Error.childError e)
    ∧ JailHandle.wait alarmOuter elapsedOuter
        (bodyReport (Except.error (Error.childError e)))
        = Except.error (Error.childError e)
    ∧ ∀ ri : RunInfo Unit,
        JailHandle.wait alarmOuter elapsedOuter
            (bodyReport (Except.error (Error.childError e)))
          ≠ Except.ok ri := by
  have houter : JailHandle.wait alarmOuter elapsedOuter
      (bodyReport (Except.error (Error.childError e)))
      = Except.error (Error.childError e) := by
    exact jailWait_eval alarmOuter elapsedOuter (ExitStatus.exited 0)
      (some (Except.error (Error.childError e)))
  have happ : applyLimits (T := Option (Except ChildError Unit)) limits usage
      (RunInfoResult.success (some (Except.error e)))
      = RunInfoResult.success (some (Except.error e)) := by
    unfold applyLimits
    cases hu : limits.user_time with
    | none => cases hm : limits.memory <;> rfl
    | some t =>
      have hlt := huser t hu
      cases hm : limits.memory <;>
        simp [Nat.not_le.mpr hlt]
  refine ⟨?_, houter, fun ri h => by rw [houter] at h; cases h⟩
  show (CloneHandle.wait limits (fun _ => Except.ok usage) elapsed false
      (bodyReport (Except.error e))).bind supervisorFlatten
    = Except.error (Error.childError e)
  have hwait : CloneHandle.wait limits (fun _ => Except.ok usage) elapsed false
      (bodyReport (Except.error e))
      = Except.ok ⟨RunInfoResult.success (some (Except.error e : Except ChildError Unit)),
          usage⟩ := by
    simp [CloneHandle.wait, bodyReport, Except.map, happ]
  rw [hwait]
  rfl

/-- Witness for C2: a missing command's `ExecError` travels the whole chain
and reaches the caller as `Error::ChildError(FFIError::ExecError)`. -/
theorem child_error_surfaces_as_childError_witness :
    supervisorBody Limits.default (fun _ => Except.ok RunUsage.default) 0 false
        (bodyReport (Except.error
          (ChildError.ffiError (FFIError.execError "missing" 2))))
      = Except.error (Error.childError
          (ChildError.ffiError (FFIError.execError "missing" 2)))
    ∧ JailHandle.wait false 0
        (bodyReport (Except.error (Error.childError
          (ChildError.ffiError (FFIError.execError "missing" 2)))))
      = Except.error (Error.childError
          (ChildError.ffiError (FFIError.execError "missing" 2))) := by
  have h := child_error_surfaces_as_childError
    (ChildError.ffiError (FFIError.execError "missing" 2)) Limits.default
    RunUsage.default 0 0 false
    (by intro t ht; cases ht)
  exact ⟨h.1, h.2.1⟩

/-- C6 (counterexample): at the concrete impossible input `Success(())`
from the inner clone body, the supervisor's flatten reports plain success —
the result is `Ok(Success(()))`, not a synthetic `ChildError`. -/
theorem innerSuccess_reported_as_success :
    supervisorBody Limits.default (fun _ => Except.ok RunUsage.default) 0 false
        (bodyReport (Except.ok ()))
      = Except.ok ⟨RunInfoResult.success (), RunUsage.default⟩
    ∧ (supervisorBody Limits.default (fun _ => Except.ok RunUsage.default) 0 false
        (bodyReport (Except.ok ()))).isOk = true :=
  ⟨rfl, rfl⟩

/-- C6 (amended): a `Success(())` received from the inner clone body is
flattened to `Ok(())` and reported as a successful run, exactly like the
empty-pipe exec-success case; no synthetic `ChildError` is produced. -/
theorem innerSuccess_flatten_amended (u : RunUsage) :
    supervisorFlatten ⟨RunInfoResult.success (some (Except.ok ())), u⟩
        = Except.ok ⟨RunInfoResult.success (), u⟩
    ∧ supervisorFlatten ⟨RunInfoResult.success none, u⟩
        = Except.ok ⟨RunInfoResult.success (), u⟩ :=
  ⟨rfl, rfl⟩

/-- C9: a constructed `Config` carries command, args, environment, root,
mounts, redirect paths, limits, net sharing, controller paths, instance
name and the swap-redirect, clear-usage and interactive flags, each
observable through the accessor of the same name. -/
theorem config_new_accessors (command : String) (args : List String)
    (environment : Environment) (new_root : Option String) (share_net : ShareNet)
    (redirect_stdin redirect_stdout redirect_stderr : Option String)
    (limits : Limits) (instance_name : Option String)
    (controller_path : ControllerPath) (mounts : List Mount)
    (swap_redirects : SwapRedirects) (clear_usage : ClearUsage)
    (interactive : Interactive) :
    (Config.new command args environment new_root share_net redirect_stdin
        redirect_stdout redirect_stderr limits instance_name controller_path
        mounts swap_redirects clear_usage interactive).command = command
    ∧ (Config.new command args environment new_root share_net redirect_stdin
        redirect_stdout redirect_stderr limits instance_name controller_path
        mounts swap_redirects clear_usage interactive).args = args
    ∧ (Config.new command args environment new_root share_net redirect_stdin
        redirect_stdout redirect_stderr limits instance_name controller_path
        mounts swap_redirects clear_usage interactive).environment = environment
    ∧ (Config.new command args environment new_root share_net redirect_stdin
        redirect_stdout redirect_stderr limits instance_name controller_path
        mounts swap_redirects clear_usage interactive).new_root = new_root
    ∧ (Config.new command args environment new_root share_net redirect_stdin
        redirect_stdout redirect_stderr limits instance_name controller_path
        mounts swap_redirects clear_usage interactive).share_net = share_net
    ∧ (Config.new command args environment new_root share_net redirect_stdin
        redirect_stdout redirect_stderr limits instance_name controller_path
        mounts swap_redirects clear_usage interactive).redirect_stdin = redirect_stdin
    ∧ (Config.new command args environment new_root share_net redirect_stdin
        redirect_stdout redirect_stderr limits instance_name controller_path
        mounts swap_redirects clear_usage interactive).redirect_stdout = redirect_stdout
    ∧ (Config.new command args environment new_root share_net redirect_stdin
        redirect_stdout redirect_stderr limits instance_name controller_path
        mounts swap_redirects clear_usage interactive).redirect_stderr = redirect_stderr
    ∧ (Config.new command args environment new_root share_net redirect_stdin
        redirect_stdout redirect_stderr limits instance_name controller_path
        mounts swap_redirects clear_usage interactive).limits = limits
    ∧ (Config.new command args environment new_root share_net redirect_stdin
        redirect_stdout redirect_stderr limits instance_name controller_path
        mounts swap_redirects clear_usage interactive).instance_name = instance_name
    ∧ (Config.new command args environment new_root share_net redirect_stdin
        redirect_stdout redirect_stderr limits instance_name controller_path
        mounts swap_redirects clear_usage interactive).controller_path = controller_path
    ∧ (Config.new command args environment new_root share_net redirect_stdin
        redirect_stdout redirect_stderr limits instance_name controller_path
        mounts swap_redirects clear_usage interactive).mounts = mounts
    ∧ (Config.new command args environment new_root share_net redirect_stdin
        redirect_stdout redirect_stderr limits instance_name controller_path
        mounts swap_redirects clear_usage interactive).swap_redirects = swap_redirects
    ∧ (Config.new command args environment new_root share_net redirect_stdin
        redirect_stdout redirect_stderr limits instance_name controller_path
        mounts swap_redirects clear_usage interactive).clear_usage = clear_usage
    ∧ (Config.new command args environment new_root share_net redirect_stdin
        redirect_stdout redirect_stderr limits instance_name controller_path
        mounts swap_redirects clear_usage interactive).interactive = interactive :=
  ⟨rfl, rfl, rfl, rfl, rfl, rfl, rfl, rfl, rfl, rfl, rfl, rfl, rfl, rfl, rfl⟩

/-- The three standard fd slots (`ffi::STDIN`, `ffi::STDOUT`, `ffi::STDERR`). -/
inductive Fd
  | stdin
  | stdout
  | stderr
deriving DecidableEq, Repr

/-- One observable setup action of `spawn_jail`'s inner clone body
(`lib.rs`), in trace form: each constructor records one `ffi`/cgroups call
with its arguments.  `pivotRootCall` is the entry into `ffi::pivot_root`,
`mountProc` the `mount_proc()` call, `umountOldRoot` the detach of the old
root that `pivot_root` performs after the in-between action. -/
inductive ChildAction
  | redirect (slot : Fd) (path : String)
  | setStackLimit (size : Option SpaceUsage)
  | enterCgroups (controller_path : ControllerPath) (instance_name : Option String)
      (limits : Limits) (clear_usage : ClearUsage)
  | unshareCgroup
  | remountPrivate
  | mountInside (new_root : String) (mount : Mount)
  | pivotRootCall (new_root : String)
  | mountProc
  | umountOldRoot
  | setUidGidMaps (uid gid : Nat)
  | moveToDifferentProcessGroup
  | execCommand (command : String) (args : List String) (environment : Environment)
deriving DecidableEq, Repr

/-- The single redirect action for a slot, when the config carries a path. -/
def optRedirect (slot : Fd) (o : Option String) : List ChildAction :=
  match o with
  | some p => [ChildAction.redirect slot p]
  | none => []

/-- `lib.rs`: the fd-redirection prologue of the inner clone body — when
`swap_redirects` is Yes, stdout first, then stdin; otherwise stdin first,
then stdout; stderr always last. -/
def redirectActions (c : Config) : List ChildAction :=
  (if c.swap_redirects = SwapRedirects.yes
    then optRedirect Fd.stdout c.redirect_stdout else [])
  ++ optRedirect Fd.stdin c.redirect_stdin
  ++ (if c.swap_redirects = SwapRedirects.no
    then optRedirect Fd.stdout c.redirect_stdout else [])
  ++ optRedirect Fd.stderr c.redirect_stderr

/-- `lib.rs`: stack rlimit, cgroup entry, cgroup-namespace unshare and
private remount, in source order. -/
def setupActions (c : Config) : List ChildAction :=
  [ChildAction.setStackLimit c.limits.stack,
   ChildAction.enterCgroups c.controller_path c.instance_name c.limits c.clear_usage,
   ChildAction.unshareCgroup,
   ChildAction.remountPrivate]

/-- `lib.rs`: with a new root, bind-mount every configured mount in order
and pivot (mounting proc between the pivot and the old-root detach);
without one, just mount proc. -/
def rootActions (c : Config) : List ChildAction :=
  match c.new_root with
  | some r =>
    c.mounts.map (fun m => ChildAction.mountInside r m)
      ++ [ChildAction.pivotRootCall r, ChildAction.mountProc, ChildAction.umountOldRoot]
  | none => [ChildAction.mountProc]

/-- `lib.rs`: the process-group change performed only when the config is
not interactive. -/
def pgidActions (c : Config) : List ChildAction :=
  if c.interactive = Interactive.no then [ChildAction.moveToDifferentProcessGroup] else []

/-- `lib.rs`: the straight-line setup trace of the sandboxed child inside
the inner clone of `spawn_jail`, in source order. -/
def childTrace (c : Config) : List ChildAction :=
  redirectActions c
  ++ setupActions c
  ++ rootActions c
  ++ [ChildAction.setUidGidMaps 0 0]
  ++ pgidActions c
  ++ [ChildAction.execCommand c.command c.args c.environment]

/-- The pipeline stage of an action, refined inside the redirect block by
the configured redirect order: with swap stdout comes first (0), otherwise
stdin (1) precedes stdout (2); stderr is last of the redirects (3). -/
def actionStage (sw : SwapRedirects) : ChildAction → Nat
  | ChildAction.redirect Fd.stdout _ =>
    match sw with
    | SwapRedirects.yes => 0
    | SwapRedirects.no => 2
  | ChildAction.redirect Fd.stdin _ => 1
  | ChildAction.redirect Fd.stderr _ => 3
  | ChildAction.setStackLimit _ => 4
  | ChildAction.enterCgroups _ _ _ _ => 5
  | ChildAction.unshareCgroup => 6
  | ChildAction.remountPrivate => 7
  | ChildAction.mountInside _ _ => 8
  | ChildAction.pivotRootCall _ => 9
  | ChildAction.mountProc => 10
  | ChildAction.umountOldRoot => 11
  | ChildAction.setUidGidMaps _ _ => 12
  | ChildAction.moveToDifferentProcessGroup => 13
  | ChildAction.execCommand _ _ _ => 14

/-- The stage of an action in the spec's pipeline (all fd redirections form
one first stage). -/
def pipelineStage : ChildAction → Nat
  | ChildAction.redirect _ _ => 0
  | ChildAction.setStackLimit _ => 1
  | ChildAction.enterCgroups _ _ _ _ => 2
  | ChildAction.unshareCgroup => 3
  | ChildAction.remountPrivate => 4
  | ChildAction.mountInside _ _ => 5
  | ChildAction.pivotRootCall _ => 6
  | ChildAction.mountProc => 7
  | ChildAction.umountOldRoot => 8
  | ChildAction.setUidGidMaps _ _ => 9
  | ChildAction.moveToDifferentProcessGroup => 10
  | ChildAction.execCommand _ _ _ => 11

/-- Collapsing the redirect-refined stages onto the spec's pipeline stages. -/
def collapseStage (k : Nat) : Nat := if k ≤ 3 then 0 else k - 3

theorem pipelineStage_eq_collapse (sw : SwapRedirects) (a : ChildAction) :
    pipelineStage a = collapseStage (actionStage sw a) := by
  cases a with
  | redirect s p => cases sw <;> cases s <;> rfl
  | setStackLimit o => rfl
  | enterCgroups cp i l cu => rfl
  | unshareCgroup => rfl
  | remountPrivate => rfl
  | mountInside r m => rfl
  | pivotRootCall r => rfl
  | mountProc => rfl
  | umountOldRoot => rfl
  | setUidGidMaps u g => rfl
  | moveToDifferentProcessGroup => rfl
  | execCommand cmd args env => rfl

theorem mem_optRedirect {a : ChildAction} {s : Fd} {o : Option String}
    (h : a ∈ optRedirect s o) : ∃ p, o = some p ∧ a = ChildAction.redirect s p := by
  cases o with
  | none => cases h
  | some p => exact ⟨p, rfl, List.mem_singleton.mp h⟩

theorem optRedirect_pairwise {R : ChildAction → ChildAction → Prop} {s : Fd}
    {o : Option String} : (optRedirect s o).Pairwise R := by
  cases o <;> simp [optRedirect]

theorem mem_redirectActions {c : Config} {a : ChildAction}
    (h : a ∈ redirectActions c) : ∃ s p, a = ChildAction.redirect s p := by
  simp only [redirectActions, List.mem_append] at h
  rcases h with ((h | h) | h) | h
  · split at h
    · obtain ⟨p, -, rfl⟩ := mem_optRedirect h
      exact ⟨_, p, rfl⟩
    · cases h
  · obtain ⟨p, -, rfl⟩ := mem_optRedirect h
    exact ⟨_, p, rfl⟩
  · split at h
    · obtain ⟨p, -, rfl⟩ := mem_optRedirect h
      exact ⟨_, p, rfl⟩
    · cases h
  · obtain ⟨p, -, rfl⟩ := mem_optRedirect h
    exact ⟨_, p, rfl⟩

theorem mem_rootActions {c : Config} {a : ChildAction} (h : a ∈ rootActions c) :
    (∃ r m, a = ChildAction.mountInside r m) ∨ (∃ r, a = ChildAction.pivotRootCall r)
    ∨ a = ChildAction.mountProc ∨ a = ChildAction.umountOldRoot := by
  cases hroot : c.new_root with
  | none =>
    rw [rootActions, hroot] at h
    exact Or.inr (Or.inr (Or.inl (List.mem_singleton.mp h)))
  | some r =>
    rw [rootActions, hroot] at h
    simp only [List.mem_append, List.mem_map, List.mem_cons,
      List.mem_singleton, List.not_mem_nil, or_false] at h
    rcases h with ⟨m, -, rfl⟩ | h | h | h
    · exact Or.inl ⟨r, m, rfl⟩
    · exact Or.inr (Or.inl ⟨r, h⟩)
    · exact Or.inr (Or.inr (Or.inl h))
    · exact Or.inr (Or.inr (Or.inr h))

theorem pairwise_of_forall_rel {α : Type} {R : α → α → Prop} (h : ∀ a b, R a b) :
    ∀ l : List α, l.Pairwise R := by
  intro l
  induction l with
  | nil => exact List.Pairwise.nil
  | cons a t ih => exact List.Pairwise.cons (fun b _ => h a b) ih

theorem pairwise_stage_append {f : ChildAction → Nat} {l₁ l₂ : List ChildAction}
    (k : Nat) (h1 : l₁.Pairwise (fun a b => f a ≤ f b))
    (h2 : l₂.Pairwise (fun a b => f a ≤ f b))
    (hb1 : ∀ a ∈ l₁, f a ≤ k) (hb2 : ∀ b ∈ l₂, k ≤ f b) :
    (l₁ ++ l₂).Pairwise (fun a b => f a ≤ f b) := by
  rw [List.pairwise_append]
  exact ⟨h1, h2, fun a ha b hb => le_trans (hb1 a ha) (hb2 b hb)⟩

theorem optRedirect_stage (sw : SwapRedirects) (v : Nat) (s : Fd) {o : Option String}
    (hv : ∀ p, actionStage sw (ChildAction.redirect s p) = v) :
    ∀ a ∈ optRedirect s o, actionStage sw a = v := by
  intro a ha
  obtain ⟨p, -, rfl⟩ := mem_optRedirect ha
  exact hv p

theorem redirect_stage_le {sw : SwapRedirects} {c : Config} :
    ∀ a ∈ redirectActions c, actionStage sw a ≤ 3 := by
  intro a ha
  obtain ⟨s, p, rfl⟩ := mem_redirectActions ha
  cases sw <;> cases s <;> simp [actionStage]

theorem setup_stage_bounds {sw : SwapRedirects} {c : Config} :
    ∀ a ∈ setupActions c, 4 ≤ actionStage sw a ∧ actionStage sw a ≤ 7 := by
  intro a ha
  simp only [setupActions, List.mem_cons, List.not_mem_nil, or_false] at ha
  rcases ha with rfl | rfl | rfl | rfl <;> simp [actionStage]

theorem root_stage_bounds {sw : SwapRedirects} {c : Config} :
    ∀ a ∈ rootActions c, 8 ≤ actionStage sw a ∧ actionStage sw a ≤ 11 := by
  intro a ha
  rcases mem_rootActions ha with ⟨r, m, rfl⟩ | ⟨r, rfl⟩ | rfl | rfl <;>
    simp [actionStage]

theorem pgid_stage {sw : SwapRedirects} {c : Config} :
    ∀ a ∈ pgidActions c, actionStage sw a = 13 := by
  intro a ha
  rw [pgidActions] at ha
  split at ha
  · rw [List.mem_singleton.mp ha]
    rfl
  · cases ha

theorem pw_redirect (c : Config) :
    (redirectActions c).Pairwise
      (fun a b => actionStage c.swap_redirects a ≤ actionStage c.swap_redirects b) := by
  cases hsw : c.swap_redirects with
  | yes =>
    simp only [redirectActions, hsw, reduceCtorEq, if_true, if_false,
      List.nil_append, List.append_nil, reduceIte]
    refine pairwise_stage_append 3 ?_ optRedirect_pairwise ?_ ?_
    · refine pairwise_stage_append 1 optRedirect_pairwise optRedirect_pairwise ?_ ?_
      · intro a ha
        rw [optRedirect_stage SwapRedirects.yes 0 Fd.stdout (fun p => rfl) a ha]
        omega
      · intro b hb
        rw [optRedirect_stage SwapRedirects.yes 1 Fd.stdin (fun p => rfl) b hb]
    · intro a ha
      rcases List.mem_append.mp ha with h | h
      · rw [optRedirect_stage SwapRedirects.yes 0 Fd.stdout (fun p => rfl) a h]
        omega
      · rw [optRedirect_stage SwapRedirects.yes 1 Fd.stdin (fun p => rfl) a h]
        omega
    · intro b hb
      rw [optRedirect_stage SwapRedirects.yes 3 Fd.stderr (fun p => rfl) b hb]
  | no =>
    simp only [redirectActions, hsw, reduceCtorEq, if_true, if_false,
      List.nil_append, List.append_nil, reduceIte]
    refine pairwise_stage_append 3 ?_ optRedirect_pairwise ?_ ?_
    · refine pairwise_stage_append 2 optRedirect_pairwise optRedirect_pairwise ?_ ?_
      · intro a ha
        rw [optRedirect_stage SwapRedirects.no 1 Fd.stdin (fun p => rfl) a ha]
        omega
      · intro b hb
        rw [optRedirect_stage SwapRedirects.no 2 Fd.stdout (fun p => rfl) b hb]
    · intro a ha
      rcases List.mem_append.mp ha with h | h
      · rw [optRedirect_stage SwapRedirects.no 1 Fd.stdin (fun p => rfl) a h]
        omega
      · rw [optRedirect_stage SwapRedirects.no 2 Fd.stdout (fun p => rfl) a h]
        omega
    · intro b hb
      rw [optRedirect_stage SwapRedirects.no 3 Fd.stderr (fun p => rfl) b hb]

theorem pw_setup (sw : SwapRedirects) (c : Config) :
    (setupActions c).Pairwise (fun a b => actionStage sw a ≤ actionStage sw b) := by
  simp [setupActions, List.pairwise_cons, actionStage]

theorem pw_root (sw : SwapRedirects) (c : Config) :
    (rootActions c).Pairwise (fun a b => actionStage sw a ≤ actionStage sw b) := by
  cases hroot : c.new_root with
  | none => simp [rootActions, hroot]
  | some r =>
    rw [rootActions, hroot]
    apply pairwise_stage_append 9
    · exact List.pairwise_map.mpr
        (pairwise_of_forall_rel (fun a b => by simp [actionStage]) c.mounts)
    · simp [List.pairwise_cons, actionStage]
    · intro a ha
      rcases List.mem_map.mp ha with ⟨m, -, rfl⟩
      simp [actionStage]
    · intro b hb
      simp only [List.mem_cons, List.not_mem_nil, or_false] at hb
      rcases hb with rfl | rfl | rfl <;> simp [actionStage]

theorem childTrace_pairwise (c : Config) :
    (childTrace c).Pairwise
      (fun a b => actionStage c.swap_redirects a ≤ actionStage c.swap_redirects b) := by
  have hsing : ∀ x : ChildAction,
      ([x] : List ChildAction).Pairwise
        (fun a b => actionStage c.swap_redirects a ≤ actionStage c.swap_redirects b) := by
    intro x
    simp
  have hpgid_pw : (pgidActions c).Pairwise
      (fun a b => actionStage c.swap_redirects a ≤ actionStage c.swap_redirects b) := by
    rw [pgidActions]
    split <;> simp
  have h1 : ∀ a ∈ redirectActions c ++ setupActions c,
      actionStage c.swap_redirects a ≤ 7 := by
    intro a ha
    rcases List.mem_append.mp ha with h | h
    · exact (redirect_stage_le a h).trans (by omega)
    · exact (setup_stage_bounds a h).2
  have h2 : ∀ a ∈ redirectActions c ++ setupActions c ++ rootActions c,
      actionStage c.swap_redirects a ≤ 11 := by
    intro a ha
    rcases List.mem_append.mp ha with h | h
    · exact (h1 a h).trans (by omega)
    · exact (root_stage_bounds a h).2
  have h3 : ∀ a ∈ redirectActions c ++ setupActions c ++ rootActions c
      ++ [ChildAction.setUidGidMaps 0 0],
      actionStage c.swap_redirects a ≤ 12 := by
    intro a ha
    rcases List.mem_append.mp ha with h | h
    · exact (h2 a h).trans (by omega)
    · simp only [List.mem_singleton] at h
      subst h
      simp [actionStage]
  have h4 : ∀ a ∈ redirectActions c ++ setupActions c ++ rootActions c
      ++ [ChildAction.setUidGidMaps 0 0] ++ pgidActions c,
      actionStage c.swap_redirects a ≤ 13 := by
    intro a ha
    rcases List.mem_append.mp ha with h | h
    · exact (h3 a h).trans (by omega)
    · rw [pgid_stage a h]
  unfold childTrace
  refine pairwise_stage_append 14 ?_ (hsing _) (fun a ha => (h4 a ha).trans (by omega)) ?_
  · refine pairwise_stage_append 13 ?_ hpgid_pw (fun a ha => (h3 a ha).trans (by omega)) ?_
    · refine pairwise_stage_append 12 ?_ (hsing _)
        (fun a ha => (h2 a ha).trans (by omega)) ?_
      · refine pairwise_stage_append 8 ?_ (pw_root c.swap_redirects c)
          (fun a ha => (h1 a ha).trans (by omega)) ?_
        · refine pairwise_stage_append 4 (pw_redirect c) (pw_setup c.swap_redirects c)
            (fun a ha => (redirect_stage_le a ha).trans (by omega)) ?_
          intro b hb
          exact le_trans (by omega) (setup_stage_bounds b hb).1
        · intro b hb
          exact le_trans (by omega) (root_stage_bounds b hb).1
      · intro b hb
        simp only [List.mem_singleton] at hb
        subst hb
        simp [actionStage]
    · intro b hb
      rw [pgid_stage b hb]
  · intro b hb
    simp only [List.mem_singleton] at hb
    subst hb
    simp [actionStage]

theorem childTrace_pairwise_pipeline (c : Config) :
    (childTrace c).Pairwise (fun a b => pipelineStage a ≤ pipelineStage b) := by
  refine (childTrace_pairwise c).imp (fun hab => ?_)
  rw [pipelineStage_eq_collapse c.swap_redirects, pipelineStage_eq_collapse c.swap_redirects]
  unfold collapseStage
  split_ifs <;> omega

/-- Every occurrence of `a` in the trace comes strictly before every
occurrence of `b`. -/
def OccursBefore (tr : List ChildAction) (a b : ChildAction) : Prop :=
  ∀ (i j : Fin tr.length), tr.get i = a → tr.get j = b → i < j

theorem occursBefore_of_pairwise {f : ChildAction → Nat} {tr : List ChildAction}
    {a b : ChildAction} (hpw : tr.Pairwise (fun x y => f x ≤ f y))
    (hab : f a < f b) : OccursBefore tr a b := by
  intro i j hi hj
  rcases lt_trichotomy i j with h | h | h
  · exact h
  · exfalso
    rw [h] at hi
    rw [hi] at hj
    rw [hj] at hab
    exact lt_irrefl _ hab
  · exfalso
    have hle := List.pairwise_iff_get.mp hpw j i h
    rw [hi, hj] at hle
    exact absurd hab (not_lt.mpr hle)

theorem mem_childTrace_cases {c : Config} {a : ChildAction} (h : a ∈ childTrace c) :
    a ∈ redirectActions c ∨ a ∈ setupActions c ∨ a ∈ rootActions c
    ∨ a = ChildAction.setUidGidMaps 0 0 ∨ a ∈ pgidActions c
    ∨ a = ChildAction.execCommand c.command c.args c.environment := by
  simp only [childTrace, List.mem_append, List.mem_singleton] at h
  tauto

theorem redirect_mem_redirectActions (c : Config) (s : Fd) (p : String) :
    ChildAction.redirect s p ∈ redirectActions c
      ↔ ((s = Fd.stdin ∧ c.redirect_stdin = some p)
        ∨ (s = Fd.stdout ∧ c.redirect_stdout = some p)
        ∨ (s = Fd.stderr ∧ c.redirect_stderr = some p)) := by
  cases hsw : c.swap_redirects <;> cases s <;>
    rcases hi : c.redirect_stdin with _ | pi <;>
    rcases ho : c.redirect_stdout with _ | po <;>
    rcases he : c.redirect_stderr with _ | pe <;>
    simp [redirectActions, optRedirect, hsw, hi, ho, he, eq_comm]

theorem redirect_mem_childTrace (c : Config) (s : Fd) (p : String) :
    ChildAction.redirect s p ∈ childTrace c
      ↔ ChildAction.redirect s p ∈ redirectActions c := by
  constructor
  · intro h
    rcases mem_childTrace_cases h with h | h | h | h | h | h
    · exact h
    · exfalso
      simp [setupActions] at h
    · exfalso
      rcases mem_rootActions h with ⟨r, m, hh⟩ | ⟨r, hh⟩ | hh | hh <;> simp at hh
    · exfalso
      simp at h
    · exfalso
      rw [pgidActions] at h
      split at h
      · simp at h
      · cases h
    · exfalso
      simp at h
  · intro h
    simp only [childTrace, List.mem_append]
    tauto

/-- C1: the sandboxed child's setup runs as a strict linear pipeline — fd
redirections, stack rlimit, cgroup join, cgroup-namespace unshare, private
remount, bind mounts, pivot_root with proc mounted between pivot and
old-root detach, uid/gid maps, process-group change, exec — on every
Config, and in particular the child joins its cgroups before
`unshare_cgroup()` and before `pivot_root`, and `exec` is the last step. -/
theorem child_setup_pipeline_order (c : Config) :
    (childTrace c).Pairwise (fun a b => pipelineStage a ≤ pipelineStage b)
    ∧ ChildAction.enterCgroups c.controller_path c.instance_name c.limits
        c.clear_usage ∈ childTrace c
    ∧ ChildAction.unshareCgroup ∈ childTrace c
    ∧ OccursBefore (childTrace c)
        (ChildAction.enterCgroups c.controller_path c.instance_name c.limits
          c.clear_usage)
        ChildAction.unshareCgroup
    ∧ (∀ r, OccursBefore (childTrace c)
        (ChildAction.enterCgroups c.controller_path c.instance_name c.limits
          c.clear_usage)
        (ChildAction.pivotRootCall r))
    ∧ (∀ r, c.new_root = some r → ChildAction.pivotRootCall r ∈ childTrace c)
    ∧ (childTrace c).getLast?
        = some (ChildAction.execCommand c.command c.args c.environment) := by
  refine ⟨childTrace_pairwise_pipeline c, ?_, ?_, ?_, ?_, ?_, ?_⟩
  · simp [childTrace, setupActions]
  · simp [childTrace, setupActions]
  · exact occursBefore_of_pairwise (childTrace_pairwise_pipeline c)
      (by simp [pipelineStage])
  · intro r
    exact occursBefore_of_pairwise (childTrace_pairwise_pipeline c)
      (by simp [pipelineStage])
  · intro r hr
    simp [childTrace, rootActions, hr]
  · unfold childTrace
    rw [List.getLast?_append_cons]
    rfl

/-- C4: each of the three redirections happens exactly when the
corresponding path is configured; with `swap_redirects = Yes` stdout is
redirected before stdin, with `No` stdin before stdout, and stderr is
redirected after both. -/
theorem redirect_order_and_presence (c : Config) :
    (∀ p, ChildAction.redirect Fd.stdin p ∈ childTrace c
        ↔ c.redirect_stdin = some p)
    ∧ (∀ p, ChildAction.redirect Fd.stdout p ∈ childTrace c
        ↔ c.redirect_stdout = some p)
    ∧ (∀ p, ChildAction.redirect Fd.stderr p ∈ childTrace c
        ↔ c.redirect_stderr = some p)
    ∧ (c.swap_redirects = SwapRedirects.yes → ∀ po pin,
        OccursBefore (childTrace c) (ChildAction.redirect Fd.stdout po)
          (ChildAction.redirect Fd.stdin pin))
    ∧ (c.swap_redirects = SwapRedirects.no → ∀ po pin,
        OccursBefore (childTrace c) (ChildAction.redirect Fd.stdin pin)
          (ChildAction.redirect Fd.stdout po))
    ∧ (∀ s p pe, s ≠ Fd.stderr →
        OccursBefore (childTrace c) (ChildAction.redirect s p)
          (ChildAction.redirect Fd.stderr pe)) := by
  refine ⟨?_, ?_, ?_, ?_, ?_, ?_⟩
  · intro p
    rw [redirect_mem_childTrace, redirect_mem_redirectActions]
    simp
  · intro p
    rw [redirect_mem_childTrace, redirect_mem_redirectActions]
    simp
  · intro p
    rw [redirect_mem_childTrace, redirect_mem_redirectActions]
    simp
  · intro hsw po pin
    refine occursBefore_of_pairwise (childTrace_pairwise c) ?_
    rw [hsw]
    simp [actionStage]
  · intro hsw po pin
    refine occursBefore_of_pairwise (childTrace_pairwise c) ?_
    rw [hsw]
    simp [actionStage]
  · intro s p pe hs
    refine occursBefore_of_pairwise (childTrace_pairwise c) ?_
    cases hsw : c.swap_redirects <;> cases s <;> simp [actionStage] at hs ⊢

/-- C5: with a new root, every configured mount is bind-mounted inside it
in order, all strictly between the early setup and the pivot, and proc is
mounted after the pivot and before the old root is detached; without a new
root, proc is mounted directly and no pivot, old-root detach or bind mount
occurs. -/
theorem mounts_then_pivot_then_proc (c : Config) :
    (∀ r, c.new_root = some r →
      ∃ pre post,
        childTrace c
          = pre ++ c.mounts.map (fun m => ChildAction.mountInside r m)
              ++ [ChildAction.pivotRootCall r, ChildAction.mountProc,
                  ChildAction.umountOldRoot] ++ post
        ∧ (∀ a ∈ pre, pipelineStage a ≤ 4)
        ∧ (∀ a ∈ post, 9 ≤ pipelineStage a))
    ∧ (c.new_root = none →
        ChildAction.mountProc ∈ childTrace c
        ∧ (∀ r, ChildAction.pivotRootCall r ∉ childTrace c)
        ∧ ChildAction.umountOldRoot ∉ childTrace c
        ∧ (∀ r m, ChildAction.mountInside r m ∉ childTrace c)) := by
  constructor
  · intro r hr
    refine ⟨redirectActions c ++ setupActions c,
      [ChildAction.setUidGidMaps 0 0] ++ pgidActions c
        ++ [ChildAction.execCommand c.command c.args c.environment], ?_, ?_, ?_⟩
    · simp [childTrace, rootActions, hr]
    · intro a ha
      rcases List.mem_append.mp ha with h | h
      · obtain ⟨s, p, rfl⟩ := mem_redirectActions h
        simp [pipelineStage]
      · simp only [setupActions, List.mem_cons, List.not_mem_nil, or_false] at h
        rcases h with rfl | rfl | rfl | rfl <;> simp [pipelineStage]
    · intro a ha
      rcases List.mem_append.mp ha with h | h
      · rcases List.mem_append.mp h with h2 | h2
        · simp only [List.mem_singleton] at h2
          subst h2
          simp [pipelineStage]
        · rw [pgidActions] at h2
          split at h2
          · simp only [List.mem_singleton] at h2
            subst h2
            simp [pipelineStage]
          · cases h2
      · simp only [List.mem_singleton] at h
        subst h
        simp [pipelineStage]
  · intro hn
    refine ⟨?_, ?_, ?_, ?_⟩
    · simp [childTrace, rootActions, hn]
    · intro r h
      rcases mem_childTrace_cases h with h | h | h | h | h | h
      · obtain ⟨s, p, hh⟩ := mem_redirectActions h
        simp at hh
      · simp [setupActions] at h
      · rw [rootActions, hn] at h
        simp at h
      · simp at h
      · rw [pgidActions] at h
        split at h
        · simp at h
        · cases h
      · simp at h
    · intro h
      rcases mem_childTrace_cases h with h | h | h | h | h | h
      · obtain ⟨s, p, hh⟩ := mem_redirectActions h
        simp at hh
      · simp [setupActions] at h
      · rw [rootActions, hn] at h
        simp at h
      · simp at h
      · rw [pgidActions] at h
        split at h
        · simp at h
        · cases h
      · simp at h
    · intro r m h
      rcases mem_childTrace_cases h with h | h | h | h | h | h
      · obtain ⟨s, p, hh⟩ := mem_redirectActions h
        simp at hh
      · simp [setupActions] at h
      · rw [rootActions, hn] at h
        simp at h
      · simp at h
      · rw [pgidActions] at h
        split at h
        · simp at h
        · cases h
      · simp at h

/-- A sample configuration with a new root, one mount, all three redirects,
swapped redirect order and non-interactive mode. -/
def cfgPiv : Config :=
  Config.new "/bin/prog" [] Environment.inherit (some "/newroot") ShareNet.share
    (some "/in") (some "/out") (some "/err") Limits.default none
    ControllerPath.default [Mount.new "/host" "/mount" MountOptions.default]
    SwapRedirects.yes ClearUsage.no Interactive.no

/-- A sample configuration with no new root and the plain redirect order. -/
def cfgPlain : Config :=
  Config.new "/bin/prog" [] Environment.inherit none ShareNet.share
    (some "/in") (some "/out") (some "/err") Limits.default none
    ControllerPath.default [] SwapRedirects.no ClearUsage.no Interactive.no

/-- Witness for C1 on `cfgPiv`: the cgroup join (index 4) comes before the
cgroup unshare (index 5) and before the pivot (index 8), which is present. -/
theorem child_setup_pipeline_order_witness :
    (⟨4, by decide⟩ : Fin (childTrace cfgPiv).length) < ⟨5, by decide⟩
    ∧ (⟨4, by decide⟩ : Fin (childTrace cfgPiv).length) < ⟨8, by decide⟩
    ∧ ChildAction.pivotRootCall "/newroot" ∈ childTrace cfgPiv := by
  refine ⟨?_, ?_, ?_⟩
  · exact (child_setup_pipeline_order cfgPiv).2.2.2.1 ⟨4, by decide⟩ ⟨5, by decide⟩
      (by decide) (by decide)
  · exact (child_setup_pipeline_order cfgPiv).2.2.2.2.1 "/newroot" ⟨4, by decide⟩
      ⟨8, by decide⟩ (by decide) (by decide)
  · exact (child_setup_pipeline_order cfgPiv).2.2.2.2.2.1 "/newroot" rfl

/-- Witness for C4: on `cfgPiv` (swap) stdout at index 0 precedes stdin at
index 1; on `cfgPlain` (no swap) stdin at index 0 precedes stdout at index
1; stderr comes after stdin on `cfgPiv`. -/
theorem redirect_order_and_presence_witness :
    (⟨0, by decide⟩ : Fin (childTrace cfgPiv).length) < ⟨1, by decide⟩
    ∧ (⟨0, by decide⟩ : Fin (childTrace cfgPlain).length) < ⟨1, by decide⟩
    ∧ (⟨1, by decide⟩ : Fin (childTrace cfgPiv).length) < ⟨2, by decide⟩ := by
  refine ⟨?_, ?_, ?_⟩
  · exact (redirect_order_and_presence cfgPiv).2.2.2.1 rfl "/out" "/in"
      ⟨0, by decide⟩ ⟨1, by decide⟩ (by decide) (by decide)
  · exact (redirect_order_and_presence cfgPlain).2.2.2.2.1 rfl "/out" "/in"
      ⟨0, by decide⟩ ⟨1, by decide⟩ (by decide) (by decide)
  · exact (redirect_order_and_presence cfgPiv).2.2.2.2.2 Fd.stdin "/in" "/err"
      (by decide) ⟨1, by decide⟩ ⟨2, by decide⟩ (by decide) (by decide)

/-- Witness for C5: on `cfgPiv` the mount/pivot/proc/detach block sits
between the early setup and the uid/gid write, and on `cfgPlain` (no new
root) proc is mounted directly. -/
theorem mounts_then_pivot_then_proc_witness :
    cfgPiv.new_root = some "/newroot"
    ∧ (∃ pre post,
        childTrace cfgPiv
          = pre ++ cfgPiv.mounts.map (fun m => ChildAction.mountInside "/newroot" m)
              ++ [ChildAction.pivotRootCall "/newroot", ChildAction.mountProc,
                  ChildAction.umountOldRoot] ++ post
          ∧ (∀ a ∈ pre, pipelineStage a ≤ 4)
          ∧ (∀ a ∈ post, 9 ≤ pipelineStage a))
    ∧ ChildAction.mountProc ∈ childTrace cfgPlain :=
  ⟨rfl, (mounts_then_pivot_then_proc cfgPiv).1 "/newroot" rfl,
   ((mounts_then_pivot_then_proc cfgPlain).2 rfl).1⟩
